import Mathlib

/-!
# Verification of the MCP stdio client (`codex-rs/mcp-client/src/mcp_client.rs`)

A shallow embedding of the client's correlation engine: the request-id
counter, the pending table mapping ids to one-shot completion senders, the
reader/writer loop bodies, and the `send_request` pipeline.  Pure data flow
is embedded as Lean functions; the effects a step performs (map updates,
messages delivered on one-shot channels, log records, bytes written) are
returned explicitly as data.

Machine integers: the id counter is an `AtomicI64` whose `fetch_add` wraps
on overflow, so it is embedded as an `Int` reduced with the two's-complement
wrap at 64 bits.
-/

namespace McpClient

/-- Wire-level request id: integer or string (`mcp_types::RequestId`). -/
inductive RequestId where
  | integer (i : Int)
  | str (s : String)
deriving DecidableEq, Repr

/-- A JSON value, as produced by `serde_json::to_value`. -/
inductive Json where
  | null
  | bool (b : Bool)
  | num (n : Int)
  | str (s : String)
  | arr (elems : List Json)
  | obj (fields : List (String × Json))
deriving Repr

/-- `serde_json::Value::is_null`. -/
def Json.isNull : Json → Bool
  | .null => true
  | _ => false

/-- The `error` member of a JSON-RPC error envelope (`code`, `message`, and
optional `data`). -/
structure ErrorData where
  code : Int
  message : String
  data? : Option Json
deriving Repr

/-- `mcp_types::JSONRPCRequest`: the outbound request envelope.  `params` is
`Option` because the field is omitted from the wire form when absent. -/
structure JSONRPCRequest where
  id : RequestId
  jsonrpc : String
  method : String
  params : Option Json
deriving Repr

/-- `mcp_types::JSONRPCResponse`. -/
structure JSONRPCResponse where
  id : RequestId
  jsonrpc : String
  result : Json
deriving Repr

/-- `mcp_types::JSONRPCError`. -/
structure JSONRPCError where
  id : RequestId
  jsonrpc : String
  error : ErrorData
deriving Repr

/-- `mcp_types::JSONRPCNotification`. -/
structure JSONRPCNotification where
  method : String
  params : Option Json
deriving Repr

/-- `mcp_types::JSONRPCMessage`: the tagged union of wire messages.  Batch
requests/responses and peer-originated requests are collapsed into the
variants the reader loop does not correlate. -/
inductive JSONRPCMessage where
  | request (r : JSONRPCRequest)
  | notification (n : JSONRPCNotification)
  | response (r : JSONRPCResponse)
  | error (e : JSONRPCError)
  | other
deriving Repr

/-- The id carried by a message, when it has one. -/
def JSONRPCMessage.msgId : JSONRPCMessage → Option RequestId
  | .request r => some r.id
  | .response r => some r.id
  | .error e => some e.id
  | .notification _ => none
  | .other => none

/-- A record emitted by the `tracing` macros (`error!`, `warn!`, `info!`). -/
inductive LogEntry where
  | error (msg : String)
  | warn (msg : String)
  | info (msg : String)
deriving DecidableEq, Repr

/-! ## The pending table

`pending: Arc<Mutex<HashMap<i64, oneshot::Sender<JSONRPCMessage>>>>`.
A one-shot sender is identified by the token `Nat` allocated when its
channel was created; the table is a key-value list with at most one entry
per id (the `HashMap` invariant). -/

/-- The pending table: request id ↦ one-shot sender token. -/
abbrev Pending := List (Int × Nat)

/-- `HashMap::get`/lookup by id. -/
def pLookup (m : Pending) (k : Int) : Option Nat :=
  match m.find? (fun p => p.1 == k) with
  | some p => some p.2
  | none => none

/-- `HashMap::remove`: drop the entry with the given key. -/
def pRemove (m : Pending) (k : Int) : Pending :=
  m.eraseP (fun p => p.1 == k)

/-- `HashMap::insert`: add or replace the entry with the given key. -/
def pInsert (m : Pending) (k : Int) (v : Nat) : Pending :=
  (k, v) :: pRemove m k

/-! ## Dispatch helpers (reader side) -/

/-- The outcome of one dispatch call: the updated pending table, the message
(if any) sent on a pending one-shot sender (token paired with payload), and
the log records emitted. -/
structure DispatchResult where
  pending : Pending
  delivered? : Option (Nat × JSONRPCMessage)
  log : List LogEntry
deriving Repr

/-- `McpClient::dispatch_response`: route a JSON-RPC response to the pending
table.  String ids are logged at error level and dropped; an integer id is
looked up, and on a hit the entry is removed and the full response is sent
on its one-shot sender; on a miss a warning is logged. -/
def dispatch_response (resp : JSONRPCResponse) (pending : Pending) : DispatchResult :=
  match resp.id with
  | .str _ =>
      { pending := pending
        delivered? := none
        log := [.error "response with string ID - no matching pending request"] }
  | .integer i =>
      match pLookup pending i with
      | some tx =>
          { pending := pRemove pending i
            delivered? := some (tx, .response resp)
            log := [] }
      | none =>
          { pending := pending
            delivered? := none
            log := [.warn "no pending request found for response"] }

/-- `McpClient::dispatch_error`: route a JSON-RPC error to the pending
table.  String ids return silently; an integer id is looked up, and on a
hit the entry is removed and the full error is sent on its one-shot sender;
on a miss nothing is done and nothing is logged. -/
def dispatch_error (err : JSONRPCError) (pending : Pending) : DispatchResult :=
  match err.id with
  | .str _ =>
      { pending := pending, delivered? := none, log := [] }
  | .integer i =>
      match pLookup pending i with
      | some tx =>
          { pending := pRemove pending i
            delivered? := some (tx, .error err)
            log := [] }
      | none =>
          { pending := pending, delivered? := none, log := [] }

/-! ## The reader loop

The reader task consumes newline-delimited records; each line is parsed by
`serde_json::from_str::<JSONRPCMessage>`, whose outcome we take as the loop's
input: `Except String JSONRPCMessage` per line.  The running state records
the shared pending table, every message sent on a one-shot sender so far
(token paired with payload, in order), and the log. -/

/-- The observable state threaded through the reader loop. -/
structure ReaderState where
  pending : Pending
  delivered : List (Nat × JSONRPCMessage)
  log : List LogEntry
deriving Repr

/-- Merge a dispatch result into the reader state. -/
def applyDispatch (s : ReaderState) (d : DispatchResult) : ReaderState :=
  { pending := d.pending
    delivered := s.delivered ++ d.delivered?.toList
    log := s.log ++ d.log }

/-- One iteration of the reader loop body: match on the parse outcome of one
line and dispatch/log accordingly. -/
def readerStep (s : ReaderState) (item : Except String JSONRPCMessage) : ReaderState :=
  match item with
  | .ok (.response resp) => applyDispatch s (dispatch_response resp s.pending)
  | .ok (.error err) => applyDispatch s (dispatch_error err s.pending)
  | .ok (.notification _) => { s with log := s.log ++ [.info "<- notification"] }
  | .ok (.request _) => { s with log := s.log ++ [.info "<- unhandled message"] }
  | .ok .other => { s with log := s.log ++ [.info "<- unhandled message"] }
  | .error _ => { s with log := s.log ++ [.error "failed to deserialize JSONRPCMessage"] }

/-- The reader loop run over a finite inbound stream; the list ending models
`next_line` returning end-of-file (or a read error), after which the loop
exits without touching the pending table. -/
def readerLoop (s : ReaderState) (items : List (Except String JSONRPCMessage)) : ReaderState :=
  items.foldl readerStep s

/-- Whether an inbound record is a reply (response or error envelope)
addressed to the integer id `i` — the records the reader loop correlates. -/
def isReplyTo (item : Except String JSONRPCMessage) (i : Int) : Bool :=
  match item with
  | .ok (.response r) => r.id == RequestId.integer i
  | .ok (.error e) => e.id == RequestId.integer i
  | _ => false

/-! ## Awaiting a reply

`send_request` ends with `rx.await` on the one-shot receiver.  The receiver
resolves with a payload once its sender fired, errors once its sender is
dropped without firing (the map entry was destroyed uncompleted), and
otherwise keeps the caller suspended.  After the loops have terminated the
client handle still owns the `Arc` of the pending map, so a sender stored
in the table remains live and its receiver stays suspended. -/

/-- Status of one caller's await on its one-shot receiver. -/
inductive AwaitStatus where
  | waiting
  | resolved (m : JSONRPCMessage)
  | closed
deriving Repr

/-- Whether some pending entry holds the given sender token. -/
def tokenPending (m : Pending) (tok : Nat) : Bool :=
  m.any (fun p => p.2 == tok)

/-- The status of the await for sender token `tok` once both loops have
terminated: a delivered payload resolves it; a sender still stored in the
(live) pending map keeps it suspended; only a dropped sender closes it. -/
def awaitStatusAfterLoops (s : ReaderState) (tok : Nat) : AwaitStatus :=
  match s.delivered.find? (fun p => p.1 == tok) with
  | some p => .resolved p.2
  | none => if tokenPending s.pending tok then .waiting else .closed

/-- The typed outcome `send_request` maps an await to (lines 237-254):
a closed receiver becomes the connection-closed `anyhow` error; a response
payload is decoded (`decode` stands for the `R::Result` deserializer); an
error payload becomes the protocol error carrying the peer's code and
message; other variants are rejected. -/
inductive SendOutcome (R : Type) where
  | ok (r : R)
  | decodeError
  | protocolError (code : Int) (message : String)
  | unexpectedVariant
  | connectionClosed
deriving Repr

/-- The `match msg` at the end of `send_request` (lines 241-254). -/
def interpretReply {R : Type} (decode : Json → Option R) : JSONRPCMessage → SendOutcome R
  | .response r =>
      match decode r.result with
      | some t => .ok t
      | none => .decodeError
  | .error e => .protocolError e.error.code e.error.message
  | _ => .unexpectedVariant

/-- The full resolution of a caller's await once both loops have terminated:
`none` while the caller is still suspended. -/
def callResolutionAfterLoops {R : Type} (decode : Json → Option R)
    (s : ReaderState) (tok : Nat) : Option (SendOutcome R) :=
  match awaitStatusAfterLoops s tok with
  | .waiting => none
  | .resolved m => some (interpretReply decode m)
  | .closed => some .connectionClosed

/-! ## The id counter

`id_counter: AtomicI64` initialised to 1; `fetch_add(1, SeqCst)` returns the
current value and stores the incremented one, wrapping on overflow. -/

/-- Two's-complement wrap of an integer into the `i64` range. -/
def wrap64 (n : Int) : Int := (n + 2 ^ 63) % 2 ^ 64 - 2 ^ 63

/-- `AtomicI64::fetch_add(1, SeqCst)`: returns the old value, stores the
wrapped successor. -/
def fetchAdd1 (counter : Int) : Int × Int := (counter, wrap64 (counter + 1))

/-- The value `new_stdio_client` stores in `id_counter` (line 186). -/
def idCounterInit : Int := 1

/-- The counter before the `(k+1)`-th allocation of the session. -/
def counterAfter : Nat → Int
  | 0 => idCounterInit
  | k + 1 => (fetchAdd1 (counterAfter k)).2

/-- The id returned by the `(k+1)`-th `send_request` of the session. -/
def idAt (k : Nat) : Int := (fetchAdd1 (counterAfter k)).1

/-! ## `send_request`: building and enqueueing the request -/

/-- The `params` field computed from the serialized params value
(lines 203-208): JSON null encodes absence. -/
def paramsField (paramsJson : Json) : Option Json :=
  if paramsJson.isNull then none else some paramsJson

/-- `JSONRPC_VERSION`. -/
def JSONRPC_VERSION : String := "2.0"

/-- The request envelope built by `send_request` (lines 210-215). -/
def buildJsonRpcRequest (id : Int) (method : String) (paramsJson : Json) : JSONRPCRequest :=
  { id := .integer id
    jsonrpc := JSONRPC_VERSION
    method := method
    params := paramsField paramsJson }

/-- Modelled from the spec: the wire serializer for the request envelope
lives in the `mcp-types` crate, which is not part of this source tree; per
the spec the envelope is `{jsonrpc:"2.0", id, method, params?}` with
"`params` omitted entirely when absent", so the serialized object contains
a `"params"` member exactly when the `params` option is populated. -/
def JSONRPCRequest.serializedFields (r : JSONRPCRequest) : List (String × Json) :=
  [("jsonrpc", Json.str r.jsonrpc),
   ("id", match r.id with
          | .integer i => Json.num i
          | .str s => Json.str s),
   ("method", Json.str r.method)]
  ++ (match r.params with
      | some v => [("params", v)]
      | none => [])

/-- Look up a member of a serialized JSON object by name. -/
def fieldValue (fields : List (String × Json)) (name : String) : Option Json :=
  match fields.find? (fun p => p.1 == name) with
  | some p => some p.2
  | none => none

/-! ## `send_request`: registration and enqueue, as an event trace

Lines 197-234 in order: allocate the id, build the message, create the
one-shot channel, insert the sender into the pending table under the
`Mutex`, then send the message to the writer task's queue.  The two
effectful steps are kept as an explicit trace so their order is part of
the model. -/

/-- The client state visible to `send_request` and the loops. -/
structure ClientState where
  idCounter : Int
  nextToken : Nat
  pending : Pending
  outQueue : List JSONRPCMessage
  channelOpen : Bool
deriving Repr

/-- An effectful step of `send_request`'s send path. -/
inductive SendEvent where
  | register (id : Int) (tok : Nat)
  | enqueue (m : JSONRPCMessage)
deriving Repr

/-- Effect of one send-path step on the client state.  `enqueue` appends to
the outgoing queue only while the channel is open (a closed channel makes
`send` fail without delivering). -/
def stepEffect (s : ClientState) : SendEvent → ClientState
  | .register i t => { s with pending := pInsert s.pending i t }
  | .enqueue m =>
      if s.channelOpen then { s with outQueue := s.outQueue ++ [m] } else s

/-- Run a trace of send-path steps. -/
def runTrace (s : ClientState) (tr : List SendEvent) : ClientState :=
  tr.foldl stepEffect s

/-- The trace of effectful steps performed by one `send_request` call
(lines 220-234): registration strictly precedes the enqueue. -/
def sendRequestTrace (id : Int) (tok : Nat) (msg : JSONRPCMessage) : List SendEvent :=
  [.register id tok, .enqueue msg]

/-- The whole enqueue half of `send_request` (lines 197-234): allocate the
id from the counter, build the envelope from the serialized params, create
the one-shot channel (consuming the next token), register, then send; a
closed outgoing channel yields the `Err` return, after which the pending
entry is *not* removed. -/
def sendRequestEnqueue (s : ClientState) (method : String) (paramsJson : Json) :
    (Except String (Int × Nat)) × ClientState :=
  let id := (fetchAdd1 s.idCounter).1
  let msg := JSONRPCMessage.request (buildJsonRpcRequest id method paramsJson)
  let tok := s.nextToken
  let s1 : ClientState :=
    { s with idCounter := (fetchAdd1 s.idCounter).2, nextToken := tok + 1 }
  let s2 := runTrace s1 (sendRequestTrace id tok msg)
  if s.channelOpen then
    (.ok (id, tok), s2)
  else
    (.error "failed to send message to writer task – channel closed", s2)

/-! ## The writer loop

Lines 119-142.  The environment's behaviour for one queued message —
whether `serde_json::to_string` succeeds and whether each of the three
stdin operations would succeed — is attached to the message. -/

/-- One queued message together with the environment's responses to the
operations the loop performs on it. -/
structure WriterItem where
  msg : JSONRPCMessage
  ser? : Option String
  writeOk : Bool
  newlineOk : Bool
  flushOk : Bool
deriving Repr

/-- Result of running the writer loop: the chunks successfully handed to
`write_all` on the child's stdin, the log, and the queue items never taken
from the channel because the loop had terminated. -/
structure WriterResult where
  written : List String
  log : List LogEntry
  remaining : List WriterItem
deriving Repr

/-- The writer loop body (lines 122-140): serialization failure logs and
continues with the next message; a failed byte write, newline write, or
flush logs and breaks out of the loop. -/
def writerLoop : List WriterItem → WriterResult
  | [] => { written := [], log := [], remaining := [] }
  | item :: rest =>
    match item.ser? with
    | none =>
        let r := writerLoop rest
        { written := r.written
          log := .error "failed to serialize JSONRPCMessage" :: r.log
          remaining := r.remaining }
    | some json =>
        if item.writeOk then
          if item.newlineOk then
            if item.flushOk then
              let r := writerLoop rest
              { written := json :: "\n" :: r.written
                log := r.log
                remaining := r.remaining }
            else
              { written := [json, "\n"]
                log := [.error "failed to flush child stdin"]
                remaining := rest }
          else
            { written := [json]
              log := [.error "failed to write newline to child stdin"]
              remaining := rest }
        else
          { written := []
            log := [.error "failed to write message to child stdin"]
            remaining := rest }

/-! ## Session establishment: argument handling (lines 84-96) -/

/-- The `std::io::ErrorKind` values `new_stdio_client` can construct before
spawning. -/
inductive IoErrorKind where
  | invalidInput
  | otherKind
deriving DecidableEq, Repr

/-- The subprocess invocation handed to `Command`. -/
structure CommandSpec where
  program : String
  args : List String
deriving DecidableEq, Repr

/-- The argument handling of `new_stdio_client` (lines 84-96): an empty
list returns an invalid-input error before any `Command` is built or
spawned; otherwise the first element is the program and the rest its
arguments. -/
def new_stdio_client_command (args : List String) : Except IoErrorKind CommandSpec :=
  if args.isEmpty then
    .error .invalidInput
  else
    .ok { program := args.headI, args := args.tail }

/-! ## Association-list lemmas for the pending table -/

theorem pLookup_mem {m : Pending} {i : Int} {tx : Nat}
    (h : pLookup m i = some tx) : (i, tx) ∈ m := by
  unfold pLookup at h
  cases hfind : m.find? (fun p => p.1 == i) with
  | none => rw [hfind] at h; exact absurd h (by simp)
  | some e =>
      rw [hfind] at h
      have he : e ∈ m := List.mem_of_find?_eq_some hfind
      have hp : (e.1 == i) = true := (List.find?_eq_some.mp hfind).1
      have h1 : e.1 = i := by simpa using hp
      have h2 : e.2 = tx := by simpa using h
      have : e = (i, tx) := by
        cases e
        simp_all
      rwa [this] at he

theorem mem_pRemove {i : Int} :
    ∀ {m : Pending}, (m.map Prod.fst).Nodup →
      ∀ {x : Int × Nat}, x ∈ pRemove m i → x ∈ m ∧ x.1 ≠ i := by
  intro m
  induction m with
  | nil =>
      intro _ x hx
      simp [pRemove] at hx
  | cons e t ih =>
      intro hnd x hx
      rw [pRemove, List.eraseP_cons] at hx
      cases he : (e.1 == i) with
      | true =>
          rw [he] at hx
          simp only [cond_true] at hx
          have he1 : e.1 = i := by simpa using he
          have hnotin : e.1 ∉ t.map Prod.fst := (List.nodup_cons.mp (by simpa using hnd)).1
          refine ⟨List.mem_cons_of_mem _ hx, ?_⟩
          intro hxi
          exact hnotin (by
            rw [he1, ← hxi]
            exact List.mem_map_of_mem Prod.fst hx)
      | false =>
          rw [he] at hx
          simp only [cond_false, List.mem_cons] at hx
          cases hx with
          | inl hxe =>
              refine ⟨by simp [hxe], ?_⟩
              rw [hxe]
              simpa using he
          | inr hxt =>
              have hndt : (t.map Prod.fst).Nodup := (List.nodup_cons.mp (by simpa using hnd)).2
              obtain ⟨hmem, hne⟩ := ih hndt hxt
              exact ⟨List.mem_cons_of_mem _ hmem, hne⟩

theorem pLookup_pInsert_self (m : Pending) (k : Int) (v : Nat) :
    pLookup (pInsert m k v) k = some v := by
  simp [pLookup, pInsert, List.find?]

theorem snd_nodup_inj {P : Pending} (htoks : (P.map Prod.snd).Nodup)
    {a b : Int} {c : Nat} (ha : (a, c) ∈ P) (hb : (b, c) ∈ P) : a = b := by
  have := List.inj_on_of_nodup_map htoks ha hb (by rfl)
  exact congrArg Prod.fst this

theorem pLookup_of_mem_nodup :
    ∀ {m : Pending}, (m.map Prod.fst).Nodup →
      ∀ {i : Int} {tok : Nat}, (i, tok) ∈ m → pLookup m i = some tok := by
  intro m
  induction m with
  | nil =>
      intro _ i tok hmem
      simp at hmem
  | cons e t ih =>
      intro hnd i tok hmem
      cases he : (e.1 == i) with
      | true =>
          have he1 : e.1 = i := by simpa using he
          have hhead : e.1 ∉ t.map Prod.fst := (List.nodup_cons.mp (by simpa using hnd)).1
          have het : e = (i, tok) := by
            rcases List.mem_cons.mp hmem with h | h
            · exact h.symm
            · exact absurd (by rw [he1]; exact List.mem_map_of_mem Prod.fst h) hhead
          rw [het]
          simp [pLookup, List.find?]
      | false =>
          have hne : e ≠ (i, tok) := by
            intro hcontra
            rw [hcontra] at he
            simp at he
          have hmt : (i, tok) ∈ t := by
            rcases List.mem_cons.mp hmem with h | h
            · exact absurd h.symm hne
            · exact h
          have hndt : (t.map Prod.fst).Nodup := (List.nodup_cons.mp (by simpa using hnd)).2
          have := ih hndt hmt
          simpa [pLookup, List.find?, he] using this

theorem mem_pRemove_of_ne :
    ∀ {m : Pending} {x : Int × Nat} {j : Int}, x ∈ m → x.1 ≠ j → x ∈ pRemove m j := by
  intro m
  induction m with
  | nil =>
      intro x j hx _
      simp at hx
  | cons e t ih =>
      intro x j hx hne
      rw [pRemove, List.eraseP_cons]
      cases he : (e.1 == j) with
      | true =>
          simp only [cond_true]
          rcases List.mem_cons.mp hx with h | h
          · exact absurd (by rw [h]; simpa using he) hne
          · exact h
      | false =>
          simp only [cond_false, List.mem_cons]
          rcases List.mem_cons.mp hx with h | h
          · exact Or.inl h
          · exact Or.inr (ih h hne)

/-! ## The correlation invariant (reader loop vs. initial registrations)

`P` is the pending table at the start of the run, i.e. the registrations of
the outstanding callers.  The invariant ties every payload delivered on a
one-shot sender back to the id under which that sender was registered. -/

/-- Invariant of the reader loop relative to the initial pending table `P`. -/
def CorrInv (P : Pending) (s : ReaderState) : Prop :=
  s.pending.Sublist P ∧
  (s.delivered.map Prod.fst).Nodup ∧
  (∀ q ∈ s.delivered, ∃ i : Int, (i, q.1) ∈ P) ∧
  (∀ q ∈ s.delivered, ∀ i : Int, (i, q.1) ∈ P → q.2.msgId = some (RequestId.integer i)) ∧
  (∀ q ∈ s.delivered, ∀ p ∈ s.pending, p.2 ≠ q.1)

theorem corrInv_init (P : Pending) : CorrInv P ⟨P, [], []⟩ := by
  refine ⟨List.Sublist.refl P, by simp, ?_, ?_, ?_⟩ <;> simp

theorem corrInv_deliver (P : Pending)
    (hkeys : (P.map Prod.fst).Nodup) (htoks : (P.map Prod.snd).Nodup)
    (s : ReaderState) (h : CorrInv P s)
    (i : Int) (tx : Nat) (m : JSONRPCMessage) (L : List LogEntry)
    (hl : pLookup s.pending i = some tx)
    (hm : m.msgId = some (RequestId.integer i)) :
    CorrInv P
      { pending := pRemove s.pending i
        delivered := s.delivered ++ [(tx, m)]
        log := L } := by
  obtain ⟨h1, h2, h3, h4, h5⟩ := h
  have hpkeys : (s.pending.map Prod.fst).Nodup := hkeys.sublist (h1.map Prod.fst)
  have hitx : (i, tx) ∈ s.pending := pLookup_mem hl
  have hitxP : (i, tx) ∈ P := h1.subset hitx
  have hsubr : (pRemove s.pending i).Sublist s.pending := by
    rw [pRemove]; exact List.eraseP_sublist _
  have htxnot : ∀ q ∈ s.delivered, q.1 ≠ tx := by
    intro q hq hqt
    exact h5 q hq (i, tx) hitx hqt.symm
  refine ⟨hsubr.trans h1, ?_, ?_, ?_, ?_⟩
  · simp only [List.map_append, List.map_cons, List.map_nil]
    rw [List.nodup_append]
    refine ⟨h2, List.nodup_singleton _, ?_⟩
    intro a ha hb
    obtain ⟨q, hq, hqa⟩ := List.mem_map.mp ha
    have : a = tx := by simpa using hb
    exact htxnot q hq (hqa.trans this)
  · intro q hq
    rcases List.mem_append.mp hq with hq | hq
    · exact h3 q hq
    · have : q = (tx, m) := by simpa using hq
      exact ⟨i, by rw [this]; exact hitxP⟩
  · intro q hq j hj
    rcases List.mem_append.mp hq with hq | hq
    · exact h4 q hq j hj
    · have hqe : q = (tx, m) := by simpa using hq
      subst hqe
      have : j = i := snd_nodup_inj htoks hj hitxP
      rw [this]
      exact hm
  · intro q hq p hp
    obtain ⟨hpmem, hpi⟩ := mem_pRemove hpkeys hp
    rcases List.mem_append.mp hq with hq | hq
    · exact h5 q hq p hpmem
    · have hqe : q = (tx, m) := by simpa using hq
      subst hqe
      intro hpt
      have hpP : (p.1, tx) ∈ P := by
        have : p = (p.1, tx) := by
          cases p
          simp_all
        rw [← this]
        exact h1.subset hpmem
      exact hpi (snd_nodup_inj htoks hpP hitxP)

theorem corrInv_log_only (P : Pending) (s : ReaderState) (h : CorrInv P s)
    (L : List LogEntry) :
    CorrInv P { pending := s.pending, delivered := s.delivered, log := L } := h

theorem corrInv_step (P : Pending)
    (hkeys : (P.map Prod.fst).Nodup) (htoks : (P.map Prod.snd).Nodup)
    (s : ReaderState) (h : CorrInv P s)
    (item : Except String JSONRPCMessage) :
    CorrInv P (readerStep s item) := by
  match item with
  | .error e =>
      simp only [readerStep]
      exact corrInv_log_only P s h _
  | .ok (.notification n) =>
      simp only [readerStep]
      exact corrInv_log_only P s h _
  | .ok (.request r) =>
      simp only [readerStep]
      exact corrInv_log_only P s h _
  | .ok .other =>
      simp only [readerStep]
      exact corrInv_log_only P s h _
  | .ok (.response resp) =>
      simp only [readerStep]
      cases hid : resp.id with
      | str s0 =>
          simp only [applyDispatch, dispatch_response, hid, Option.toList, List.append_nil]
          exact corrInv_log_only P s h _
      | integer i =>
          cases hl : pLookup s.pending i with
          | none =>
              simp only [applyDispatch, dispatch_response, hid, hl, Option.toList,
                List.append_nil]
              exact corrInv_log_only P s h _
          | some tx =>
              simp only [applyDispatch, dispatch_response, hid, hl, Option.toList,
                List.append_nil]
              exact corrInv_deliver P hkeys htoks s h i tx _ _ hl
                (by simp [JSONRPCMessage.msgId, hid])
  | .ok (.error err) =>
      simp only [readerStep]
      cases hid : err.id with
      | str s0 =>
          simp only [applyDispatch, dispatch_error, hid, Option.toList, List.append_nil]
          exact corrInv_log_only P s h _
      | integer i =>
          cases hl : pLookup s.pending i with
          | none =>
              simp only [applyDispatch, dispatch_error, hid, hl, Option.toList,
                List.append_nil]
              exact corrInv_log_only P s h _
          | some tx =>
              simp only [applyDispatch, dispatch_error, hid, hl, Option.toList,
                List.append_nil]
              exact corrInv_deliver P hkeys htoks s h i tx _ _ hl
                (by simp [JSONRPCMessage.msgId, hid])

theorem corrInv_loop (P : Pending)
    (hkeys : (P.map Prod.fst).Nodup) (htoks : (P.map Prod.snd).Nodup) :
    ∀ (items : List (Except String JSONRPCMessage)) (s : ReaderState),
      CorrInv P s → CorrInv P (readerLoop s items) := by
  intro items
  induction items with
  | nil => intro s h; exact h
  | cons it rest ih =>
      intro s h
      exact ih (readerStep s it) (corrInv_step P hkeys htoks s h it)

theorem mem_delivered_readerStep (s : ReaderState) (it : Except String JSONRPCMessage)
    {q : Nat × JSONRPCMessage} (hq : q ∈ s.delivered) : q ∈ (readerStep s it).delivered := by
  match it with
  | .error e => simpa [readerStep] using hq
  | .ok (.notification n) => simpa [readerStep] using hq
  | .ok (.request r) => simpa [readerStep] using hq
  | .ok .other => simpa [readerStep] using hq
  | .ok (.response r) =>
      simp only [readerStep, applyDispatch, List.mem_append]
      exact Or.inl hq
  | .ok (.error e) =>
      simp only [readerStep, applyDispatch, List.mem_append]
      exact Or.inl hq

theorem mem_delivered_readerLoop :
    ∀ (items : List (Except String JSONRPCMessage)) (s : ReaderState)
      {q : Nat × JSONRPCMessage}, q ∈ s.delivered → q ∈ (readerLoop s items).delivered := by
  intro items
  induction items with
  | nil => intro s q hq; exact hq
  | cons it rest ih =>
      intro s q hq
      exact ih (readerStep s it) (mem_delivered_readerStep s it hq)

theorem pending_survives_step (P : Pending) (s : ReaderState)
    (hsub : s.pending.Sublist P) (it : Except String JSONRPCMessage)
    {i : Int} {tok : Nat} (hmem : (i, tok) ∈ s.pending)
    (hrep : isReplyTo it i = false) :
    (i, tok) ∈ (readerStep s it).pending ∧ (readerStep s it).pending.Sublist P := by
  have hsubr : ∀ j, (pRemove s.pending j).Sublist P := by
    intro j
    rw [pRemove]
    exact (List.eraseP_sublist _).trans hsub
  match it with
  | .error e => exact ⟨hmem, hsub⟩
  | .ok (.notification n) => exact ⟨hmem, hsub⟩
  | .ok (.request r) => exact ⟨hmem, hsub⟩
  | .ok .other => exact ⟨hmem, hsub⟩
  | .ok (.response r) =>
      simp only [readerStep, applyDispatch]
      cases hid : r.id with
      | str s0 => simp only [dispatch_response, hid]; exact ⟨hmem, hsub⟩
      | integer j =>
          have hji : j ≠ i := by
            intro hcontra
            rw [isReplyTo, hid, hcontra] at hrep
            simp at hrep
          cases hl : pLookup s.pending j with
          | none => simp only [dispatch_response, hid, hl]; exact ⟨hmem, hsub⟩
          | some tx =>
              simp only [dispatch_response, hid, hl]
              exact ⟨mem_pRemove_of_ne hmem (fun h => hji h.symm), hsubr j⟩
  | .ok (.error e) =>
      simp only [readerStep, applyDispatch]
      cases hid : e.id with
      | str s0 => simp only [dispatch_error, hid]; exact ⟨hmem, hsub⟩
      | integer j =>
          have hji : j ≠ i := by
            intro hcontra
            rw [isReplyTo, hid, hcontra] at hrep
            simp at hrep
          cases hl : pLookup s.pending j with
          | none => simp only [dispatch_error, hid, hl]; exact ⟨hmem, hsub⟩
          | some tx =>
              simp only [dispatch_error, hid, hl]
              exact ⟨mem_pRemove_of_ne hmem (fun h => hji h.symm), hsubr j⟩

theorem reply_delivered (P : Pending) (hkeys : (P.map Prod.fst).Nodup) :
    ∀ (items : List (Except String JSONRPCMessage)) (s : ReaderState),
      s.pending.Sublist P →
      ∀ i tok, (i, tok) ∈ s.pending →
        (∃ item ∈ items, isReplyTo item i = true) →
        ∃ m, (tok, m) ∈ (readerLoop s items).delivered := by
  intro items
  induction items with
  | nil =>
      intro s _ i tok _ hex
      obtain ⟨item, hitem, _⟩ := hex
      simp at hitem
  | cons it rest ih =>
      intro s hsub i tok hmem hex
      have hpk : (s.pending.map Prod.fst).Nodup := hkeys.sublist (hsub.map Prod.fst)
      by_cases hrep : isReplyTo it i = true
      · have hl : pLookup s.pending i = some tok := pLookup_of_mem_nodup hpk hmem
        match it, hrep with
        | .ok (.response r), hrep =>
            have hid : r.id = RequestId.integer i := by
              rw [isReplyTo] at hrep
              simpa using hrep
            refine ⟨.response r, mem_delivered_readerLoop rest _ ?_⟩
            show (tok, JSONRPCMessage.response r)
              ∈ (readerStep s (.ok (.response r))).delivered
            simp [readerStep, dispatch_response, hid, hl, applyDispatch]
        | .ok (.error e), hrep =>
            have hid : e.id = RequestId.integer i := by
              rw [isReplyTo] at hrep
              simpa using hrep
            refine ⟨.error e, mem_delivered_readerLoop rest _ ?_⟩
            show (tok, JSONRPCMessage.error e)
              ∈ (readerStep s (.ok (.error e))).delivered
            simp [readerStep, dispatch_error, hid, hl, applyDispatch]
      · have hrep' : isReplyTo it i = false := by
          cases h : isReplyTo it i
          · rfl
          · exact absurd h hrep
        obtain ⟨item, hitem, hrepl⟩ := hex
        have hitem' : item ∈ rest := by
          rcases List.mem_cons.mp hitem with h | h
          · rw [h] at hrepl; exact absurd hrepl hrep
          · exact h
        obtain ⟨hkeep, hsub'⟩ := pending_survives_step P s hsub it hmem hrep'
        exact ih (readerStep s it) hsub' i tok hkeep ⟨item, hitem', hrepl⟩

/-- C1: Correlation correctness.  Start the reader loop on a pending table
`P` of outstanding registrations (distinct ids, distinct one-shot senders)
with nothing delivered yet, and let the inbound stream contain — in any
order, interleaved with anything else — a reply addressed to each
registered id.  Then every registered caller's one-shot sender actually
receives a payload, that payload is addressed to exactly the id that
caller registered (never another caller's id), and no sender receives
more than one payload: each call resolves with exactly its own reply. -/
theorem correlation_correctness (P : Pending)
    (hkeys : (P.map Prod.fst).Nodup) (htoks : (P.map Prod.snd).Nodup)
    (items : List (Except String JSONRPCMessage))
    (hall : ∀ p ∈ P, ∃ item ∈ items, isReplyTo item p.1 = true) :
    (∀ p ∈ P, ∃ m, (p.2, m) ∈ (readerLoop ⟨P, [], []⟩ items).delivered ∧
        m.msgId = some (RequestId.integer p.1)) ∧
    (∀ q ∈ (readerLoop ⟨P, [], []⟩ items).delivered,
        (∃ i : Int, (i, q.1) ∈ P) ∧
        ∀ i : Int, (i, q.1) ∈ P → q.2.msgId = some (RequestId.integer i)) ∧
    ((readerLoop ⟨P, [], []⟩ items).delivered.map Prod.fst).Nodup := by
  obtain ⟨h1, h2, h3, h4, h5⟩ :=
    corrInv_loop P hkeys htoks items ⟨P, [], []⟩ (corrInv_init P)
  refine ⟨?_, fun q hq => ⟨h3 q hq, h4 q hq⟩, h2⟩
  intro p hp
  obtain ⟨m, hm⟩ := reply_delivered P hkeys items ⟨P, [], []⟩ (List.Sublist.refl P)
    p.1 p.2 (by simpa using hp) (hall p hp)
  exact ⟨m, hm, h4 (p.2, m) hm p.1 (by simpa using hp)⟩

/-- Witness for C1: two outstanding requests (ids 1 and 2, senders 10 and
20) whose replies arrive out of order; the run concretely delivers reply
22 to sender 20 and reply 11 to sender 10, and the theorem's conclusion
holds at this input. -/
theorem correlation_correctness_witness :
    (readerLoop ⟨[(1, 10), (2, 20)], [], []⟩
        [Except.ok (JSONRPCMessage.response ⟨RequestId.integer 2, "2.0", Json.num 22⟩),
         Except.ok (JSONRPCMessage.response ⟨RequestId.integer 1, "2.0", Json.num 11⟩)]).delivered
      = [(20, JSONRPCMessage.response ⟨RequestId.integer 2, "2.0", Json.num 22⟩),
         (10, JSONRPCMessage.response ⟨RequestId.integer 1, "2.0", Json.num 11⟩)] ∧
    ((∀ p ∈ ([(1, 10), (2, 20)] : Pending),
        ∃ m, (p.2, m) ∈ (readerLoop ⟨[(1, 10), (2, 20)], [], []⟩
          [Except.ok (JSONRPCMessage.response ⟨RequestId.integer 2, "2.0", Json.num 22⟩),
           Except.ok (JSONRPCMessage.response ⟨RequestId.integer 1, "2.0",
             Json.num 11⟩)]).delivered ∧
          m.msgId = some (RequestId.integer p.1)) ∧
      (∀ q ∈ (readerLoop ⟨[(1, 10), (2, 20)], [], []⟩
          [Except.ok (JSONRPCMessage.response ⟨RequestId.integer 2, "2.0", Json.num 22⟩),
           Except.ok (JSONRPCMessage.response ⟨RequestId.integer 1, "2.0",
             Json.num 11⟩)]).delivered,
        (∃ i : Int, (i, q.1) ∈ ([(1, 10), (2, 20)] : Pending)) ∧
        ∀ i : Int, (i, q.1) ∈ ([(1, 10), (2, 20)] : Pending) →
          q.2.msgId = some (RequestId.integer i)) ∧
      ((readerLoop ⟨[(1, 10), (2, 20)], [], []⟩
          [Except.ok (JSONRPCMessage.response ⟨RequestId.integer 2, "2.0", Json.num 22⟩),
           Except.ok (JSONRPCMessage.response ⟨RequestId.integer 1, "2.0",
             Json.num 11⟩)]).delivered.map Prod.fst).Nodup) :=
  ⟨rfl,
    correlation_correctness [(1, 10), (2, 20)] (by decide) (by decide)
      [Except.ok (JSONRPCMessage.response ⟨RequestId.integer 2, "2.0", Json.num 22⟩),
       Except.ok (JSONRPCMessage.response ⟨RequestId.integer 1, "2.0", Json.num 11⟩)]
      (by decide)⟩

/-- C2: Registration happens-before send.  Along the effectful trace of one
`send_request` call, at every prefix at which the request message is already
in the outgoing queue the waiter is already registered under the allocated
id; consequently a reply bearing that id dispatched immediately after the
enqueue step finds the registered waiter and is delivered to it. -/
theorem registration_happens_before_send (s : ClientState) (id : Int) (tok : Nat)
    (msg : JSONRPCMessage) (resp : JSONRPCResponse)
    (hfresh : msg ∉ s.outQueue) (hresp : resp.id = RequestId.integer id) :
    (∀ k : Nat,
        msg ∈ (runTrace s ((sendRequestTrace id tok msg).take k)).outQueue →
          pLookup (runTrace s ((sendRequestTrace id tok msg).take k)).pending id = some tok) ∧
    (dispatch_response resp (runTrace s (sendRequestTrace id tok msg)).pending).delivered?
      = some (tok, JSONRPCMessage.response resp) := by
  have hpend : (runTrace s (sendRequestTrace id tok msg)).pending
      = pInsert s.pending id tok := by
    simp only [runTrace, sendRequestTrace, List.foldl, stepEffect]
    split <;> rfl
  constructor
  · intro k
    match k with
    | 0 => intro hk; exact absurd hk hfresh
    | 1 => intro hk; exact absurd hk hfresh
    | n + 2 =>
        intro _
        have htake : (sendRequestTrace id tok msg).take (n + 2)
            = sendRequestTrace id tok msg := by
          simp [sendRequestTrace]
        rw [htake, hpend]
        exact pLookup_pInsert_self s.pending id tok
  · rw [hpend]
    simp [dispatch_response, hresp, pLookup_pInsert_self]

/-- Witness for C2: a fresh client with an empty queue, id 1, sender token
0, and a peer reply to id 1 arriving immediately after the enqueue. -/
theorem registration_happens_before_send_witness :
    ((JSONRPCMessage.request (buildJsonRpcRequest 1 "tools/list" Json.null)
        ∉ (⟨1, 0, [], [], true⟩ : ClientState).outQueue) ∧
      (⟨RequestId.integer 1, "2.0", Json.num 5⟩ : JSONRPCResponse).id
        = RequestId.integer 1) ∧
    ((∀ k : Nat,
        JSONRPCMessage.request (buildJsonRpcRequest 1 "tools/list" Json.null)
            ∈ (runTrace ⟨1, 0, [], [], true⟩
                ((sendRequestTrace 1 0 (JSONRPCMessage.request
                  (buildJsonRpcRequest 1 "tools/list" Json.null))).take k)).outQueue →
          pLookup (runTrace ⟨1, 0, [], [], true⟩
              ((sendRequestTrace 1 0 (JSONRPCMessage.request
                (buildJsonRpcRequest 1 "tools/list" Json.null))).take k)).pending 1
            = some 0) ∧
      (dispatch_response ⟨RequestId.integer 1, "2.0", Json.num 5⟩
          (runTrace ⟨1, 0, [], [], true⟩
            (sendRequestTrace 1 0 (JSONRPCMessage.request
              (buildJsonRpcRequest 1 "tools/list" Json.null)))).pending).delivered?
        = some (0, JSONRPCMessage.response ⟨RequestId.integer 1, "2.0", Json.num 5⟩)) :=
  ⟨⟨by simp, rfl⟩,
    registration_happens_before_send ⟨1, 0, [], [], true⟩ 1 0
      (JSONRPCMessage.request (buildJsonRpcRequest 1 "tools/list" Json.null))
      ⟨RequestId.integer 1, "2.0", Json.num 5⟩ (by simp) rfl⟩

/-- C3 counterexample: request id 3 is pending (sender token 0) and the
inbound stream closes immediately, terminating the reader loop with no
reply.  The claim says the awaiting call then resolves to the distinct
connection-closed error; in the code the sender stays in the still-live
pending map, so the await never resolves at all — the call blocks. -/
theorem connection_closed_counterexample :
    callResolutionAfterLoops (fun j => some j) (readerLoop ⟨[(3, 0)], [], []⟩ []) 0 = none ∧
    ¬ callResolutionAfterLoops (fun j => some j) (readerLoop ⟨[(3, 0)], [], []⟩ []) 0
        = some SendOutcome.connectionClosed := by
  refine ⟨rfl, ?_⟩
  intro h
  rw [show callResolutionAfterLoops (fun j => some j)
      (readerLoop ⟨[(3, 0)], [], []⟩ []) 0 = none from rfl] at h
  exact Option.noConfusion h

/-- C3 amended: after the loops terminate, a caller whose sender received
no payload resolves to the connection-closed error exactly when its sender
is no longer held by the pending table (i.e. was dropped); while its entry
is still registered, the call does not resolve at all. -/
theorem connection_closed_amended {R : Type} (decode : Json → Option R)
    (s : ReaderState) (tok : Nat)
    (hnd : s.delivered.find? (fun p => p.1 == tok) = none) :
    (tokenPending s.pending tok = true →
      callResolutionAfterLoops decode s tok = none) ∧
    (tokenPending s.pending tok = false →
      callResolutionAfterLoops decode s tok = some SendOutcome.connectionClosed) := by
  constructor <;> intro h <;>
    simp [callResolutionAfterLoops, awaitStatusAfterLoops, hnd, h]

/-- Witness for C3 (amended claim), at the abandoned-entry state from the
counterexample and at a state whose entry was dropped. -/
theorem connection_closed_amended_witness :
    (([] : List (Nat × JSONRPCMessage)).find? (fun p => p.1 == 0) = none) ∧
    ((tokenPending [(3, 0)] 0 = true →
        callResolutionAfterLoops (fun j => some j) ⟨[(3, 0)], [], []⟩ 0 = none) ∧
      (tokenPending [(3, 0)] 0 = false →
        callResolutionAfterLoops (fun j => some j) ⟨[(3, 0)], [], []⟩ 0
          = some SendOutcome.connectionClosed)) :=
  ⟨rfl, connection_closed_amended (fun j => some j) ⟨[(3, 0)], [], []⟩ 0 rfl⟩

/-- C4: Params wire encoding.  If the caller's params serialize to JSON
null, the built envelope's serialized object has no `params` member at all;
if they serialize to any non-null value, the `params` member is exactly
that value. -/
theorem params_wire_encoding (id : Int) (method : String) (paramsJson : Json) :
    (paramsJson.isNull = true →
      fieldValue (buildJsonRpcRequest id method paramsJson).serializedFields "params"
        = none) ∧
    (paramsJson.isNull = false →
      fieldValue (buildJsonRpcRequest id method paramsJson).serializedFields "params"
        = some paramsJson) := by
  constructor <;> intro h <;>
    simp [fieldValue, JSONRPCRequest.serializedFields, buildJsonRpcRequest, paramsField, h,
      List.find?]

/-- Witness for C4: absent params (`null`) and a concrete object params. -/
theorem params_wire_encoding_witness :
    (Json.null.isNull = true ∧
      fieldValue (buildJsonRpcRequest 1 "tools/list" Json.null).serializedFields "params"
        = none) ∧
    ((Json.obj [("cursor", Json.str "abc")]).isNull = false ∧
      fieldValue (buildJsonRpcRequest 2 "tools/list"
          (Json.obj [("cursor", Json.str "abc")])).serializedFields "params"
        = some (Json.obj [("cursor", Json.str "abc")])) :=
  ⟨⟨rfl, (params_wire_encoding 1 "tools/list" Json.null).1 rfl⟩,
    ⟨rfl, (params_wire_encoding 2 "tools/list"
      (Json.obj [("cursor", Json.str "abc")])).2 rfl⟩⟩

/-- C5: Protocol error propagation.  A JSON-RPC error reply bearing a
pending request's id is delivered to exactly that caller's sender, and the
reply interpretation at the end of `send_request` turns it into the
protocol-level error carrying the peer's exact code and message. -/
theorem protocol_error_propagation {R : Type} (decode : Json → Option R)
    (P : Pending) (i : Int) (tok : Nat) (code : Int) (message : String)
    (d? : Option Json) (hl : pLookup P i = some tok) :
    (readerStep ⟨P, [], []⟩
        (Except.ok (JSONRPCMessage.error
          ⟨RequestId.integer i, JSONRPC_VERSION, ⟨code, message, d?⟩⟩))).delivered
      = [(tok, JSONRPCMessage.error
          ⟨RequestId.integer i, JSONRPC_VERSION, ⟨code, message, d?⟩⟩)] ∧
    interpretReply decode
        (JSONRPCMessage.error ⟨RequestId.integer i, JSONRPC_VERSION, ⟨code, message, d?⟩⟩)
      = SendOutcome.protocolError code message := by
  constructor
  · simp [readerStep, dispatch_error, applyDispatch, hl]
  · rfl

/-- Witness for C5, at the spec's own example: the peer answers pending
request id 1 with `{"code": -32601, "message": "method not found"}`. -/
theorem protocol_error_propagation_witness :
    pLookup [(1, 0)] 1 = some 0 ∧
    ((readerStep ⟨[(1, 0)], [], []⟩
        (Except.ok (JSONRPCMessage.error
          ⟨RequestId.integer 1, JSONRPC_VERSION, ⟨-32601, "method not found", none⟩⟩))).delivered
      = [(0, JSONRPCMessage.error
          ⟨RequestId.integer 1, JSONRPC_VERSION, ⟨-32601, "method not found", none⟩⟩)] ∧
    interpretReply (fun j => some j)
        (JSONRPCMessage.error
          ⟨RequestId.integer 1, JSONRPC_VERSION, ⟨-32601, "method not found", none⟩⟩)
      = SendOutcome.protocolError (-32601) "method not found") :=
  ⟨rfl, protocol_error_propagation (fun j => some j) [(1, 0)] 1 0 (-32601)
    "method not found" none rfl⟩

/-- C6 counterexample: an inbound JSON-RPC *error* whose integer id has no
pending entry, and one whose id is a string, are both dropped by
`dispatch_error` with *no* log record at all, refuting the claim that every
unmatched reply is logged. -/
theorem unmatched_error_unlogged_counterexample :
    (dispatch_error ⟨RequestId.integer 5, "2.0", ⟨-32601, "method not found", none⟩⟩ []).log
      = [] ∧
    (dispatch_error ⟨RequestId.str "abc", "2.0", ⟨-32601, "method not found", none⟩⟩
        [(1, 0)]).log
      = [] ∧
    (dispatch_error ⟨RequestId.integer 5, "2.0", ⟨-32601, "method not found", none⟩⟩
        []).delivered? = none :=
  ⟨rfl, rfl, rfl⟩

/-- C6 amended: unmatched inbound replies are inert.  A response with a
string id is logged at error level and dropped; a response with an integer
id absent from the pending table is logged as a warning and dropped; an
error with a string id or an unmatched integer id is dropped silently with
no log.  In every case the pending table is returned exactly unchanged and
nothing is delivered. -/
theorem unmatched_replies_inert (pending : Pending)
    (resp : JSONRPCResponse) (err : JSONRPCError) :
    (∀ s0, resp.id = RequestId.str s0 →
        dispatch_response resp pending =
          ⟨pending, none,
            [LogEntry.error "response with string ID - no matching pending request"]⟩) ∧
    (∀ i, resp.id = RequestId.integer i → pLookup pending i = none →
        dispatch_response resp pending =
          ⟨pending, none, [LogEntry.warn "no pending request found for response"]⟩) ∧
    (∀ s0, err.id = RequestId.str s0 →
        dispatch_error err pending = ⟨pending, none, []⟩) ∧
    (∀ i, err.id = RequestId.integer i → pLookup pending i = none →
        dispatch_error err pending = ⟨pending, none, []⟩) := by
  refine ⟨?_, ?_, ?_, ?_⟩
  · intro s0 h
    simp [dispatch_response, h]
  · intro i h hl
    simp [dispatch_response, h, hl]
  · intro s0 h
    simp [dispatch_error, h]
  · intro i h hl
    simp [dispatch_error, h, hl]

/-- Witness for C6 (amended claim): a response with unknown integer id 7
against a table holding only id 1; its entry is untouched. -/
theorem unmatched_replies_inert_witness :
    (⟨RequestId.integer 7, "2.0", Json.num 9⟩ : JSONRPCResponse).id
        = RequestId.integer 7 ∧
    pLookup [(1, 0)] 7 = none ∧
    dispatch_response ⟨RequestId.integer 7, "2.0", Json.num 9⟩ [(1, 0)] =
      ⟨[(1, 0)], none, [LogEntry.warn "no pending request found for response"]⟩ :=
  ⟨rfl, rfl,
    (unmatched_replies_inert [(1, 0)] ⟨RequestId.integer 7, "2.0", Json.num 9⟩
      ⟨RequestId.integer 7, "2.0", ⟨0, "", none⟩⟩).2.1 7 rfl rfl⟩

theorem wrap64_add_left (x y : Int) : wrap64 (wrap64 x + y) = wrap64 (x + y) := by
  unfold wrap64
  have h1 : (2 : Int) ^ 63 = 9223372036854775808 := by norm_num
  have h2 : (2 : Int) ^ 64 = 18446744073709551616 := by norm_num
  rw [h1, h2]
  omega

theorem wrap64_eq_self {n : Int} (hlo : -(2 ^ 63) ≤ n) (hhi : n < 2 ^ 63) :
    wrap64 n = n := by
  unfold wrap64
  have h1 : (2 : Int) ^ 63 = 9223372036854775808 := by norm_num
  have h2 : (2 : Int) ^ 64 = 18446744073709551616 := by norm_num
  rw [h1, h2]
  rw [h1] at hlo hhi
  omega

theorem counterAfter_closed (k : Nat) : counterAfter k = wrap64 (1 + (k : Int)) := by
  induction k with
  | zero =>
      show idCounterInit = wrap64 (1 + 0)
      rw [add_zero]
      decide
  | succ k ih =>
      show wrap64 (counterAfter k + 1) = wrap64 (1 + ((k : Int) + 1))
      rw [ih, wrap64_add_left]
      congr 1

theorem idAt_closed (k : Nat) : idAt k = wrap64 (1 + (k : Int)) := counterAfter_closed k

/-- C7 counterexample: the id counter is a 64-bit atomic whose `fetch_add`
wraps on overflow.  The allocation at index `2^63 - 2` (the `2^63 - 1`-th
call) yields `2^63 - 1`, and the very next allocation wraps to `-2^63`,
which is *smaller* — refuting "each subsequent allocation yields a strictly
larger id than every previous one" as stated for the whole session
lifetime. -/
theorem id_generation_counterexample :
    idAt (2 ^ 63 - 2) = 2 ^ 63 - 1 ∧
    idAt (2 ^ 63 - 1) = -(2 ^ 63) ∧
    ¬ idAt (2 ^ 63 - 2) < idAt (2 ^ 63 - 1) := by
  have h1 : idAt (2 ^ 63 - 2) = 2 ^ 63 - 1 := by
    rw [idAt_closed]
    have hc : (((2 : Nat) ^ 63 - 2 : Nat) : Int) = 2 ^ 63 - 2 := by decide
    rw [hc]
    decide
  have h2 : idAt (2 ^ 63 - 1) = -(2 ^ 63) := by
    rw [idAt_closed]
    have hc : (((2 : Nat) ^ 63 - 1 : Nat) : Int) = 2 ^ 63 - 1 := by decide
    rw [hc]
    decide
  refine ⟨h1, h2, ?_⟩
  rw [h1, h2]
  decide

/-- C7 amended: ids are integers allocated from a session-scoped counter;
the first allocated id is 1, and for the first `2^63 - 1` allocations the
ids are exactly `1, 2, 3, …` — strictly increasing, hence never repeated.
Beyond that the 64-bit counter wraps and the sequence is no longer
increasing. -/
theorem id_generation_amended :
    idAt 0 = 1 ∧
    ∀ j k : Nat, j < k → k < 2 ^ 63 - 1 → idAt j < idAt k := by
  constructor
  · decide
  · intro j k hjk hk
    have hj63 : (j : Int) < 2 ^ 63 - 1 := by
      have : (j : Int) < (k : Int) := by exact_mod_cast hjk
      have hk63 : (k : Int) < 2 ^ 63 - 1 := by
        have h8 : ((2 ^ 63 - 1 : Nat) : Int) = 2 ^ 63 - 1 := by decide
        calc (k : Int) < ((2 ^ 63 - 1 : Nat) : Int) := by exact_mod_cast hk
          _ = 2 ^ 63 - 1 := h8
      linarith
    have hk63 : (k : Int) < 2 ^ 63 - 1 := by
      have h8 : ((2 ^ 63 - 1 : Nat) : Int) = 2 ^ 63 - 1 := by decide
      calc (k : Int) < ((2 ^ 63 - 1 : Nat) : Int) := by exact_mod_cast hk
        _ = 2 ^ 63 - 1 := h8
    rw [idAt_closed j, idAt_closed k]
    have hp : (0 : Int) < 2 ^ 63 := by positivity
    have hj0 : (0 : Int) ≤ (j : Int) := Int.natCast_nonneg j
    have hk0 : (0 : Int) ≤ (k : Int) := Int.natCast_nonneg k
    rw [wrap64_eq_self (by linarith) (by linarith),
      wrap64_eq_self (by linarith) (by linarith)]
    have : (j : Int) < (k : Int) := by exact_mod_cast hjk
    linarith

/-- Witness for C7 (amended claim): the second allocation (id 2) is larger
than the first (id 1). -/
theorem id_generation_amended_witness :
    (0 < 1 ∧ 1 < 2 ^ 63 - 1) ∧ idAt 0 = 1 ∧ idAt 0 < idAt 1 :=
  ⟨⟨by decide, by norm_num⟩, id_generation_amended.1,
    id_generation_amended.2 0 1 (by decide) (by norm_num)⟩

/-- C8: Writer loop fault policy.  A message whose serialization fails is
logged and dropped, with every subsequent queue message processed exactly
as it would have been; a failure in the byte write, the newline write, or
the flush logs one error and terminates the loop, leaving every subsequent
message unprocessed; a fully successful message has its serialized form and
newline written, with the loop continuing. -/
theorem writer_loop_fault_policy (item : WriterItem) (rest : List WriterItem) :
    (item.ser? = none →
      writerLoop (item :: rest) =
        { written := (writerLoop rest).written
          log := LogEntry.error "failed to serialize JSONRPCMessage" :: (writerLoop rest).log
          remaining := (writerLoop rest).remaining }) ∧
    (∀ json, item.ser? = some json →
      (item.writeOk = false ∨ item.newlineOk = false ∨ item.flushOk = false) →
        (writerLoop (item :: rest)).remaining = rest ∧
        ∃ m, (writerLoop (item :: rest)).log = [LogEntry.error m]) ∧
    (∀ json, item.ser? = some json → item.writeOk = true → item.newlineOk = true →
      item.flushOk = true →
        writerLoop (item :: rest) =
          { written := json :: "\n" :: (writerLoop rest).written
            log := (writerLoop rest).log
            remaining := (writerLoop rest).remaining }) := by
  refine ⟨?_, ?_, ?_⟩
  · intro hser
    simp [writerLoop, hser]
  · intro json hser hbad
    cases hw : item.writeOk with
    | false =>
        refine ⟨by simp [writerLoop, hser, hw], "failed to write message to child stdin", ?_⟩
        simp [writerLoop, hser, hw]
    | true =>
        cases hn : item.newlineOk with
        | false =>
            refine ⟨by simp [writerLoop, hser, hw, hn],
              "failed to write newline to child stdin", ?_⟩
            simp [writerLoop, hser, hw, hn]
        | true =>
            cases hf : item.flushOk with
            | false =>
                refine ⟨by simp [writerLoop, hser, hw, hn, hf],
                  "failed to flush child stdin", ?_⟩
                simp [writerLoop, hser, hw, hn, hf]
            | true =>
                rcases hbad with hb | hb | hb <;> simp_all
  · intro json hser hw hn hf
    simp [writerLoop, hser, hw, hn, hf]

/-- Witness for C8: a queue holding an unserializable message, then a
message whose newline write fails, then a normal message — showing the
drop-and-continue, the terminate, and the success behaviours. -/
theorem writer_loop_fault_policy_witness :
    ((⟨JSONRPCMessage.other, none, true, true, true⟩ : WriterItem).ser? = none ∧
      writerLoop [⟨JSONRPCMessage.other, none, true, true, true⟩] =
        { written := (writerLoop []).written
          log := LogEntry.error "failed to serialize JSONRPCMessage" :: (writerLoop []).log
          remaining := (writerLoop []).remaining }) ∧
    ((⟨JSONRPCMessage.other, some "a", true, false, true⟩ : WriterItem).ser? = some "a" ∧
      (writerLoop [⟨JSONRPCMessage.other, some "a", true, false, true⟩,
          ⟨JSONRPCMessage.other, some "b", true, true, true⟩]).remaining
        = [⟨JSONRPCMessage.other, some "b", true, true, true⟩] ∧
      ∃ m, (writerLoop [⟨JSONRPCMessage.other, some "a", true, false, true⟩,
          ⟨JSONRPCMessage.other, some "b", true, true, true⟩]).log = [LogEntry.error m]) ∧
    writerLoop [⟨JSONRPCMessage.other, some "c", true, true, true⟩] =
      { written := "c" :: "\n" :: (writerLoop []).written
        log := (writerLoop []).log
        remaining := (writerLoop []).remaining } :=
  ⟨⟨rfl, (writer_loop_fault_policy ⟨JSONRPCMessage.other, none, true, true, true⟩ []).1 rfl⟩,
    ⟨rfl,
      (writer_loop_fault_policy ⟨JSONRPCMessage.other, some "a", true, false, true⟩
        [⟨JSONRPCMessage.other, some "b", true, true, true⟩]).2.1 "a" rfl (Or.inr (Or.inl rfl))⟩,
    (writer_loop_fault_policy ⟨JSONRPCMessage.other, some "c", true, true, true⟩ []).2.2
      "c" rfl rfl rfl rfl⟩

/-- C9: Empty argument rejection.  `new_stdio_client` with an empty
argument list fails with the invalid-input error before any command is
constructed or spawned; with a non-empty list the first element is the
program and the rest its arguments. -/
theorem empty_args_rejected :
    new_stdio_client_command [] = Except.error IoErrorKind.invalidInput ∧
    ∀ (p : String) (rest : List String),
      new_stdio_client_command (p :: rest) = Except.ok ⟨p, rest⟩ := by
  constructor
  · rfl
  · intro p rest
    rfl

/-- C10: No atomicity on enqueue failure.  When the outgoing channel is
closed, `send_request` returns the channel-closed error, enqueues nothing —
yet the waiter it registered for the freshly allocated id is still in the
pending table. -/
theorem enqueue_failure_keeps_waiter (s : ClientState) (method : String)
    (paramsJson : Json) (h : s.channelOpen = false) :
    (sendRequestEnqueue s method paramsJson).1 =
      Except.error "failed to send message to writer task – channel closed" ∧
    pLookup (sendRequestEnqueue s method paramsJson).2.pending (fetchAdd1 s.idCounter).1
      = some s.nextToken ∧
    (sendRequestEnqueue s method paramsJson).2.outQueue = s.outQueue := by
  refine ⟨?_, ?_, ?_⟩ <;>
    simp [sendRequestEnqueue, runTrace, sendRequestTrace, stepEffect, h, fetchAdd1,
      pLookup_pInsert_self]

/-- Witness for C10: a closed channel; the error is returned while the
entry for the allocated id 1 (token 0) remains registered. -/
theorem enqueue_failure_keeps_waiter_witness :
    (⟨1, 0, [], [], false⟩ : ClientState).channelOpen = false ∧
    ((sendRequestEnqueue ⟨1, 0, [], [], false⟩ "tools/list" Json.null).1 =
        Except.error "failed to send message to writer task – channel closed" ∧
      pLookup (sendRequestEnqueue ⟨1, 0, [], [], false⟩ "tools/list" Json.null).2.pending
          (fetchAdd1 (⟨1, 0, [], [], false⟩ : ClientState).idCounter).1
        = some (⟨1, 0, [], [], false⟩ : ClientState).nextToken ∧
      (sendRequestEnqueue ⟨1, 0, [], [], false⟩ "tools/list" Json.null).2.outQueue
        = (⟨1, 0, [], [], false⟩ : ClientState).outQueue) :=
  ⟨rfl, enqueue_failure_keeps_waiter ⟨1, 0, [], [], false⟩ "tools/list" Json.null rfl⟩

end McpClient
